import Mathlib

/-!
Shallow embedding of the `libretranslate` Go client library
(`src/libretranslate.go`, the no-token variant, and `src/unnamed/part_000`,
the token variant) together with the Go standard-library behavior the code
relies on (`net/url.Parse`, `path.Join`, `url.Values.Encode`,
`encoding/json` decoding into the concrete payload shapes the client uses,
and `http.NewRequest` / `http.Client.Do`).

Modelling conventions:
- Go `error` values are the inductive `Err`; the distinct `fmt.Errorf` call
  sites become distinct constructors carrying the data interpolated into the
  format string (status code, decoded message).
- Go's `(value, error)` return pairs become `GoResult`, whose `.ret v e`
  constructor carries both the value and the optional error exactly as the
  Go function returns them; `.crash` models a runtime panic
  (`http.Client.Do` dereferencing a nil request).
- The injected HTTP transport (`http.Client.Do`) is a parameter
  `Request → Except Err Response`.
- JSON response bodies are either an already-parsed JSON tree (`Body.json`)
  or raw undecodable bytes such as an empty or non-JSON body (`Body.raw`).
- `float64` values (the `confidence` field) are modelled as `ℚ`: the client
  never computes with them, it only carries them through decoding.
-/

namespace Libretranslate

/-- A parsed JSON value (`encoding/json`'s data model restricted to what the
client decodes). Numbers are `ℚ` since they are only carried, never
computed with. -/
inductive Json where
  | null
  | bool (b : Bool)
  | num (q : ℚ)
  | str (s : String)
  | arr (l : List Json)
  | obj (fields : List (String × Json))

/-- An HTTP response body: a parsed JSON document, or raw bytes that do not
parse as JSON (this includes the empty body, on which `json.Decode` fails
with `io.EOF`). -/
inductive Body where
  | json (j : Json)
  | raw (s : String)

/-- Go `error` values produced by the client, one constructor per
`fmt.Errorf` / stdlib error source:
- `urlError`: `"URL parsing error: %s"` from `buildRequest`;
- `transport`: an error returned by `http.Client.Do` itself;
- `api s m`: `"API error: code %d - %s"` from `checkForResponseErrors`;
- `apiUndecodable s`: `"API error: non-ok response (%d) from the API and
  failed to decode error message"`;
- `jsonType`: an `encoding/json` `UnmarshalTypeError` (decode continues and
  partially populates the target, the first such error is returned);
- `jsonMalformed`: an `encoding/json` syntax / EOF error (body not JSON). -/
inductive Err where
  | urlError (msg : String)
  | transport (msg : String)
  | api (status : Nat) (msg : String)
  | apiUndecodable (status : Nat)
  | jsonType (msg : String)
  | jsonMalformed (msg : String)
deriving DecidableEq

/-- Outcome of a Go function returning `(T, error)`: `.ret v e` is a normal
return of value `v` and error `e` (`none` = `nil`); `.crash` is a runtime
panic. -/
inductive GoResult (α : Type) where
  | ret (val : α) (err : Option Err)
  | crash
deriving DecidableEq

/-- An HTTP response as seen by `checkForResponseErrors`: numeric status
code and body. -/
structure Response where
  status : Nat
  body : Body

/-- A parsed URL (`net/url.URL` restricted to the components this client
reads or writes: scheme, host, path, raw query). -/
structure URL where
  scheme : String
  host : String
  path : String
  rawQuery : String
deriving DecidableEq

/-- An outbound HTTP request (`http.Request` restricted to what
`buildRequest` sets: method, URL, headers, body string). -/
structure Request where
  method : String
  url : URL
  headers : List (String × String)
  body : String
deriving DecidableEq

/-- `url.Values`: a set-of-key/value-pairs parameter bag. The Go type is
`map[string][]string`; since the client only ever uses `Set` (which
replaces any previous value) each key occurs at most once, and `Encode`
sorts by key, so a list of pairs is a faithful representation. -/
abbrev Values : Type := List (String × String)

/-- `url.Values.Set`: replace any existing values for the key with the
single given value. -/
def Values.set (vs : Values) (k v : String) : Values :=
  vs.filter (fun p => p.1 ≠ k) ++ [(k, v)]

/-- The empty `url.Values{}`. -/
def Values.empty : Values := ([] : List (String × String))

/-! ## Go `path.Clean` / `path.Join`

`path.Join` joins its non-empty arguments with `"/"` and applies
`path.Clean`. `Clean` is specified (and implemented) by the four rewrite
rules of Rob Pike's lexical file-name algorithm: iteratively drop empty and
`.` segments, resolve `..` against a preceding segment, keep leading `..`
in relative paths, drop `..` at the root. We implement it on `List Char`
by splitting on `'/'` and processing the segments against a stack, which
realizes exactly those rules. -/

/-- Split a character list on `'/'`, keeping empty segments (the segment
list is never empty: splitting the empty string yields `[[]]`). -/
def splitSl : List Char → List (List Char)
  | [] => [[]]
  | c :: rest =>
    if c = '/' then [] :: splitSl rest
    else
      match splitSl rest with
      | [] => [[c]]
      | s :: ss => (c :: s) :: ss

/-- Intercalate segments with `'/'`. -/
def interSl : List (List Char) → List Char
  | [] => []
  | [x] => x
  | x :: xs => x ++ '/' :: interSl xs

/-- One step of `path.Clean`'s segment processing: skip empty and `"."`
segments, resolve `".."` against the stack (top of stack = last segment). -/
def cleanStep (rooted : Bool) (stack : List (List Char)) (seg : List Char) :
    List (List Char) :=
  if seg = [] ∨ seg = ['.'] then stack
  else if seg = ['.', '.'] then
    match stack with
    | [] => if rooted then [] else [seg]
    | top :: rest => if top = ['.', '.'] then seg :: stack else rest
  else seg :: stack

/-- Whether a path begins with `'/'`. -/
def isRooted : List Char → Bool
  | '/' :: _ => true
  | _ => false

/-- Go `path.Clean` on a character list. -/
def cleanL (s : List Char) : List Char :=
  let rooted := isRooted s
  let stack := ((splitSl s).foldl (cleanStep rooted) []).reverse
  if rooted then '/' :: interSl stack
  else if stack = [] then ['.']
  else interSl stack

/-- Go `path.Join` of two elements on character lists: join the non-empty
elements with `'/'` and clean; all-empty input yields the empty path. -/
def pathJoin (p e : List Char) : List Char :=
  if p = [] then (if e = [] then [] else cleanL e)
  else cleanL (p ++ '/' :: e)

/-- Go `path.Join` of two elements on strings, as used by `buildRequest`
(`uri.Path = path.Join(uri.Path, endpoint)`). -/
def pathJoinStr (p e : String) : String :=
  String.mk (pathJoin p.data e.data)

/-! ## Go `net/url.Parse` (restricted model)

`url.Parse` as exercised by this client: it fails on any ASCII control
character in the URL (`net/url: invalid control character in URL`); an
absolute URL `scheme://host/path?query` is split into its components; a
string without `"://"` parses as a bare path (no scheme, no host).
Fragments, userinfo, opaque URLs and percent-escape validation are outside
the subset the client's base URLs exercise and are not modelled. -/

/-- ASCII control characters, which make Go's `url.Parse` fail. -/
def isCtl (c : Char) : Bool := c.toNat < 0x20 || c.toNat == 0x7f

/-- Split `scheme://rest` at the first `"://"`, if present. -/
def findSchemeSplit : List Char → Option (List Char × List Char)
  | [] => none
  | ':' :: '/' :: '/' :: rest => some ([], rest)
  | c :: rest => (findSchemeSplit rest).map (fun p => (c :: p.1, p.2))

/-- Split a path-and-query character list at the first `'?'`. -/
def splitQuery (l : List Char) : List Char × List Char :=
  (l.takeWhile (fun c => c != '?'), (l.dropWhile (fun c => c != '?')).drop 1)

/-- Model of Go `url.Parse` on the subset of URLs this client exercises. -/
def parseURL (s : String) : Option URL :=
  if s.data.any isCtl then none
  else
    match findSchemeSplit s.data with
    | some (sch, rest) =>
      if sch = [] then none
      else
        let host := rest.takeWhile (fun c => c != '/' && c != '?')
        let tail := rest.dropWhile (fun c => c != '/' && c != '?')
        let pq := splitQuery tail
        some ⟨String.mk sch, String.mk host, String.mk pq.1, String.mk pq.2⟩
    | none =>
      let pq := splitQuery s.data
      some ⟨"", "", String.mk pq.1, String.mk pq.2⟩

/-! ## Go `url.Values.Encode` -/

/-- Lexicographic byte order on character lists (ASCII subset of Go's
string order, which `Encode` uses to sort keys). -/
def charListLe : List Char → List Char → Bool
  | [], _ => true
  | _ :: _, [] => false
  | a :: as, b :: bs =>
    if a = b then charListLe as bs else Nat.blt a.toNat b.toNat

/-- One hexadecimal digit, uppercase (as Go's percent-encoding emits). -/
def hexDigit (n : Nat) : Char :=
  if n < 10 then Char.ofNat (48 + n) else Char.ofNat (55 + n)

/-- UTF-8 encoding of a character as a list of byte values. -/
def charUtf8 (c : Char) : List Nat :=
  let n := c.toNat
  if n < 0x80 then [n]
  else if n < 0x800 then [0xC0 + n / 0x40, 0x80 + n % 0x40]
  else if n < 0x10000 then
    [0xE0 + n / 0x1000, 0x80 + (n / 0x40) % 0x40, 0x80 + n % 0x40]
  else
    [0xF0 + n / 0x40000, 0x80 + (n / 0x1000) % 0x40,
     0x80 + (n / 0x40) % 0x40, 0x80 + n % 0x40]

/-- Go `url.QueryEscape` applied to one character: unreserved characters
(alphanumerics and `-._~`) stand for themselves, space becomes `'+'`, every
other byte of the UTF-8 encoding becomes `%XX`. -/
def escapeChar (c : Char) : List Char :=
  if c.isAlphanum || c = '-' || c = '_' || c = '.' || c = '~' then [c]
  else if c = ' ' then ['+']
  else (charUtf8 c).flatMap (fun b => ['%', hexDigit (b / 16), hexDigit (b % 16)])

/-- Go `url.QueryEscape`. -/
def queryEscape (s : String) : String :=
  String.mk (s.data.flatMap escapeChar)

/-- Insert a pair into a key-sorted list of pairs. -/
def insertSorted (x : String × String) : List (String × String) → List (String × String)
  | [] => [x]
  | y :: ys => if charListLe x.1.data y.1.data then x :: y :: ys else y :: insertSorted x ys

/-- Sort a parameter list by key (insertion sort; `Encode` iterates keys in
sorted order). -/
def sortByKey (vs : Values) : List (String × String) :=
  vs.foldr insertSorted []

/-- Go `url.Values.Encode`: keys in sorted order, each pair rendered
`escape(k)=escape(v)`, pairs joined by `&`. -/
def valuesEncode (vs : Values) : String :=
  String.intercalate "&" ((sortByKey vs).map (fun p => queryEscape p.1 ++ "=" ++ queryEscape p.2))

/-! ## Payload types (`src/unnamed/part_000` / `src/libretranslate.go`)

The two source files declare identical `Detection` and `Language` types;
`TranslateResult` in the token variant additionally carries
`detectedLanguage` (the no-token variant's `TranslateResult` is the
sub-record with only `translatedText`, and both variants' `Translate`
return only the `translatedText` field, so the richer record subsumes
both). -/

/-- The result of a detection query (`json:"confidence"`,
`json:"language"`). -/
structure Detection where
  confidence : ℚ
  language : String
deriving DecidableEq

/-- A supported language (`json:"code"`, `json:"name"`). -/
structure Language where
  code : String
  name : String
deriving DecidableEq

/-- The result of a translation query (`json:"detectedLanguage"`,
`json:"translatedText"`). -/
structure TranslateResult where
  detectedLanguage : Detection
  translatedText : String
deriving DecidableEq

/-! ## `encoding/json` decoding into the client's target shapes

Go's `json.Decode` into a struct: a JSON object populates the matching
fields in input order (unknown keys ignored, `null` leaves the current
value); a JSON value of the wrong kind records an `UnmarshalTypeError`
but decoding continues ("Unmarshal ... skips that field and completes the
unmarshaling as best it can"), and the first such error is what `Decode`
returns. Decoding into a slice decodes each array element this way,
partially populating the slice even when some element errors; a non-array
value records a type error and leaves the slice as it was (the client
always starts from an empty slice); `null` succeeds and leaves it empty.
Simplifications that no claim exercises: field names are matched
case-sensitively (Go also falls back to a case-insensitive match), and a
repeated object key re-decodes the field from its zero value rather than
merging. -/

/-- Decode a JSON value into a string field holding `cur`. -/
def decodeStrField (cur : String) : Json → String × Option Err
  | .str s => (s, none)
  | .null => (cur, none)
  | _ => (cur, some (.jsonType "cannot unmarshal into string"))

/-- Decode a JSON value into a `float64` field holding `cur`. -/
def decodeNumField (cur : ℚ) : Json → ℚ × Option Err
  | .num q => (q, none)
  | .null => (cur, none)
  | _ => (cur, some (.jsonType "cannot unmarshal into float64"))

/-- Decode a JSON value into a `Detection` (starting from its zero value,
as the client always does). -/
def decodeDetection (j : Json) : Detection × Option Err :=
  match j with
  | .obj fields =>
    fields.foldl
      (fun acc kv =>
        if kv.1 = "confidence" then
          let r := decodeNumField acc.1.confidence kv.2
          (⟨r.1, acc.1.language⟩, acc.2 <|> r.2)
        else if kv.1 = "language" then
          let r := decodeStrField acc.1.language kv.2
          (⟨acc.1.confidence, r.1⟩, acc.2 <|> r.2)
        else acc)
      (⟨0, ""⟩, none)
  | .null => (⟨0, ""⟩, none)
  | _ => (⟨0, ""⟩, some (.jsonType "cannot unmarshal into Detection"))

/-- Decode a JSON value into a `Language`. -/
def decodeLanguage (j : Json) : Language × Option Err :=
  match j with
  | .obj fields =>
    fields.foldl
      (fun acc kv =>
        if kv.1 = "code" then
          let r := decodeStrField acc.1.code kv.2
          (⟨r.1, acc.1.name⟩, acc.2 <|> r.2)
        else if kv.1 = "name" then
          let r := decodeStrField acc.1.name kv.2
          (⟨acc.1.code, r.1⟩, acc.2 <|> r.2)
        else acc)
      (⟨"", ""⟩, none)
  | .null => (⟨"", ""⟩, none)
  | _ => (⟨"", ""⟩, some (.jsonType "cannot unmarshal into Language"))

/-- Decode a JSON value into a `TranslateResult`. -/
def decodeTranslateResult (j : Json) : TranslateResult × Option Err :=
  match j with
  | .obj fields =>
    fields.foldl
      (fun acc kv =>
        if kv.1 = "detectedLanguage" then
          let r := decodeDetection kv.2
          (⟨r.1, acc.1.translatedText⟩, acc.2 <|> r.2)
        else if kv.1 = "translatedText" then
          let r := decodeStrField acc.1.translatedText kv.2
          (⟨acc.1.detectedLanguage, r.1⟩, acc.2 <|> r.2)
        else acc)
      (⟨⟨0, ""⟩, ""⟩, none)
  | .null => (⟨⟨0, ""⟩, ""⟩, none)
  | _ => (⟨⟨0, ""⟩, ""⟩, some (.jsonType "cannot unmarshal into TranslateResult"))

/-- Decode a JSON value into the service's error payload struct
`apiError { Error string json:"error" }`, returning the message. -/
def decodeApiErrorObj (j : Json) : String × Option Err :=
  match j with
  | .obj fields =>
    fields.foldl
      (fun acc kv =>
        if kv.1 = "error" then
          let r := decodeStrField acc.1 kv.2
          (r.1, acc.2 <|> r.2)
        else acc)
      ("", none)
  | .null => ("", none)
  | _ => ("", some (.jsonType "cannot unmarshal into apiError"))

/-- `json.NewDecoder(responseBody).Decode(&result)` for
`result := []Detection{}`: the returned slice and error. -/
def decodeDetectionList (b : Body) : List Detection × Option Err :=
  match b with
  | .raw _ => ([], some (.jsonMalformed "invalid JSON"))
  | .json (.arr l) =>
    (l.map (fun j => (decodeDetection j).1),
     l.foldl (fun acc j => acc <|> (decodeDetection j).2) none)
  | .json .null => ([], none)
  | .json _ => ([], some (.jsonType "cannot unmarshal into slice"))

/-- `json.NewDecoder(responseBody).Decode(&result)` for
`result := []Language{}`. -/
def decodeLanguageList (b : Body) : List Language × Option Err :=
  match b with
  | .raw _ => ([], some (.jsonMalformed "invalid JSON"))
  | .json (.arr l) =>
    (l.map (fun j => (decodeLanguage j).1),
     l.foldl (fun acc j => acc <|> (decodeLanguage j).2) none)
  | .json .null => ([], none)
  | .json _ => ([], some (.jsonType "cannot unmarshal into slice"))

/-- `json.NewDecoder(responseBody).Decode(&result)` for
`result := TranslateResult{}`. -/
def decodeTranslateBody (b : Body) : TranslateResult × Option Err :=
  match b with
  | .raw _ => (⟨⟨0, ""⟩, ""⟩, some (.jsonMalformed "invalid JSON"))
  | .json j => decodeTranslateResult j

/-- `json.NewDecoder(res.Body).Decode(&result)` for
`var result apiError`, as performed on the non-200 path of
`checkForResponseErrors`: `some message` when the decode succeeds,
`none` when it returns an error. -/
def decodeApiError (b : Body) : Option String :=
  match b with
  | .raw _ => none
  | .json j =>
    match decodeApiErrorObj j with
    | (m, none) => some m
    | (_, some _) => none

/-! ## The gateway (`buildRequest`, `checkForResponseErrors`, `doRequest`)

Both source files define `buildRequest` and `checkForResponseErrors` with
identical bodies (the receivers differ only in the `baseUrl` field they
read), so each is embedded once, with `buildRequest` taking the base URL
directly. `http.NewRequest` re-serializes and re-parses the URL; on the
structured URLs produced here that round-trip cannot fail, so its error
branch (re-raised as `"HTTP request creation error"`) is dead in the model
and `newRequest` is total. -/

/-- `http.NewRequest(method, uri.String(), bytes.NewBufferString(body))`
restricted to the successful case. -/
def newRequest (method : String) (u : URL) (body : String) : Request :=
  ⟨method, u, [], body⟩

/-- `req.Header.Set(k, v)` (the key is already in canonical MIME form). -/
def setHeader (hs : List (String × String)) (k v : String) :
    List (String × String) :=
  hs.filter (fun p => p.1 ≠ k) ++ [(k, v)]

/-- `buildRequest`: parse the base URL (failure is returned as the
`"URL parsing error"`), join the endpoint onto its path with `path.Join`,
form-encode the parameters into the request body, and set the
`Content-Type` header only for POST. -/
def buildRequest (baseUrl method endpoint : String) (params : Values) :
    Except Err Request :=
  match parseURL baseUrl with
  | none => .error (.urlError "URL parsing error")
  | some uri =>
    let uri' : URL := ⟨uri.scheme, uri.host, pathJoinStr uri.path endpoint, uri.rawQuery⟩
    let req := newRequest method uri' (valuesEncode params)
    if method = "POST" then
      .ok ⟨req.method, req.url, setHeader req.headers "Content-Type" "application/x-www-form-urlencoded", req.body⟩
    else
      .ok req

/-- `checkForResponseErrors`: on status 200 return the body for the caller
to decode; otherwise decode the body as the `{error: string}` payload and
fail with `"API error: code %d - %s"`, or with the fixed
failed-to-decode error when that decode itself fails. -/
def checkForResponseErrors (res : Response) : Except Err Body :=
  if res.status ≠ 200 then
    match decodeApiError res.body with
    | none => .error (.apiUndecodable res.status)
    | some m => .error (.api res.status m)
  else
    .ok res.body

/-- `doRequest` (`src/unnamed/part_000`): send the request through the
transport and check the response. -/
def doRequest (transport : Request → Except Err Response) (req : Request) :
    Except Err Body :=
  match transport req with
  | .error e => .error e
  | .ok res => checkForResponseErrors res

/-! ## The token client (`src/unnamed/part_000`) -/

/-- `DefaultBaseURL` of the token variant. -/
def DefaultBaseURL : String := "https://libretranslate.com"

/-- The token variant's `Client` (the `*http.Client` handle is the
injected transport argument of each operation). -/
structure Client where
  baseUrl : String
  token : String

/-- `NewClient(token)`. -/
def NewClient (token : String) : Client := ⟨DefaultBaseURL, token⟩

/-- `NewClientWithBaseURL(baseURL, token)`. -/
def NewClientWithBaseURL (baseURL token : String) : Client := ⟨baseURL, token⟩

/-- The parameter bag `Detect` builds: `q`, then `api_key`. -/
def detectParams (c : Client) (q : String) : Values :=
  (Values.empty.set "q" q).set "api_key" c.token

/-- The parameter bag `GetLanguages` builds: `api_key`. -/
def languagesParams (c : Client) : Values :=
  Values.empty.set "api_key" c.token

/-- The parameter bag `Translate` builds: `q`, `source`, `target`,
`api_key`. -/
def translateParams (c : Client) (query source target : String) : Values :=
  (((Values.empty.set "q" query).set "source" source).set "target" target).set "api_key" c.token

/-- `Detect` (token variant): POST `/detect`, decode a `[]Detection`;
note the final `return result, err` returns the decoded slice together
with any decode error. -/
def Detect (c : Client) (transport : Request → Except Err Response)
    (q : String) : GoResult (List Detection) :=
  match buildRequest c.baseUrl "POST" "/detect" (detectParams c q) with
  | .error e => .ret [] (some e)
  | .ok req =>
    match doRequest transport req with
    | .error e => .ret [] (some e)
    | .ok responseBody =>
      let dec := decodeDetectionList responseBody
      .ret dec.1 dec.2

/-- `GetLanguages` (token variant): GET `/languages`, decode a
`[]Language`; the final `return result, err` returns the decoded slice
together with any decode error. -/
def GetLanguages (c : Client) (transport : Request → Except Err Response) :
    GoResult (List Language) :=
  match buildRequest c.baseUrl "GET" "/languages" (languagesParams c) with
  | .error e => .ret [] (some e)
  | .ok req =>
    match doRequest transport req with
    | .error e => .ret [] (some e)
    | .ok responseBody =>
      let dec := decodeLanguageList responseBody
      .ret dec.1 dec.2

/-- `Translate` (token variant): POST `/translate`, decode a
`TranslateResult`, return only its `translatedText` (the empty string on
any failure). -/
def Translate (c : Client) (transport : Request → Except Err Response)
    (query source target : String) : GoResult String :=
  match buildRequest c.baseUrl "POST" "/translate" (translateParams c query source target) with
  | .error e => .ret "" (some e)
  | .ok req =>
    match doRequest transport req with
    | .error e => .ret "" (some e)
    | .ok responseBody =>
      let dec := decodeTranslateBody responseBody
      match dec.2 with
      | some e => .ret "" (some e)
      | none => .ret dec.1.translatedText none

/-! ## The no-token client (`src/libretranslate.go`) -/

/-- `DefaultBaseURL` of the no-token variant. -/
def DefaultBaseURLNT : String := "https://translate.argosopentech.com"

/-- The no-token variant's `Client`. -/
structure ClientNT where
  baseUrl : String

/-- The no-token variant's `NewClient()`. -/
def NewClientNT : ClientNT := ⟨DefaultBaseURLNT⟩

/-- The parameter bag the no-token `Detect` builds: only `q`. -/
def detectParamsNT (q : String) : Values :=
  Values.empty.set "q" q

/-- The parameter bag the no-token `GetLanguages` passes:
`url.Values{}`. -/
def languagesParamsNT : Values := Values.empty

/-- The parameter bag the no-token `Translate` builds: `q`, `source`,
`target`. -/
def translateParamsNT (query source target : String) : Values :=
  ((Values.empty.set "q" query).set "source" source).set "target" target

/-- `Detect` (no-token variant): checks every error; on a decode error
returns `nil, err`. -/
def DetectNT (c : ClientNT) (transport : Request → Except Err Response)
    (q : String) : GoResult (List Detection) :=
  match buildRequest c.baseUrl "POST" "/detect" (detectParamsNT q) with
  | .error e => .ret [] (some e)
  | .ok req =>
    match transport req with
    | .error e => .ret [] (some e)
    | .ok res =>
      match checkForResponseErrors res with
      | .error e => .ret [] (some e)
      | .ok responseBody =>
        let dec := decodeDetectionList responseBody
        match dec.2 with
        | some e => .ret [] (some e)
        | none => .ret dec.1 none

/-- `GetLanguages` (no-token variant): the error from `buildRequest` is
IGNORED (`req, err := c.buildRequest(...)` with no check); the code then
calls `c.client.Do(req)` on the nil request, which dereferences it and
panics — modelled as `.crash`. On a decode error the code returns
`result, err` (the decoded slice together with the error). -/
def GetLanguagesNT (c : ClientNT) (transport : Request → Except Err Response) :
    GoResult (List Language) :=
  match buildRequest c.baseUrl "GET" "/languages" languagesParamsNT with
  | .error _ => .crash
  | .ok req =>
    match transport req with
    | .error e => .ret [] (some e)
    | .ok res =>
      match checkForResponseErrors res with
      | .error e => .ret [] (some e)
      | .ok responseBody =>
        let dec := decodeLanguageList responseBody
        match dec.2 with
        | some e => .ret dec.1 (some e)
        | none => .ret dec.1 none

/-- `Translate` (no-token variant). -/
def TranslateNT (c : ClientNT) (transport : Request → Except Err Response)
    (query source target : String) : GoResult String :=
  match buildRequest c.baseUrl "POST" "/translate" (translateParamsNT query source target) with
  | .error e => .ret "" (some e)
  | .ok req =>
    match transport req with
    | .error e => .ret "" (some e)
    | .ok res =>
      match checkForResponseErrors res with
      | .error e => .ret "" (some e)
      | .ok responseBody =>
        let dec := decodeTranslateBody responseBody
        match dec.2 with
        | some e => .ret "" (some e)
        | none => .ret dec.1.translatedText none

/-- A transport that replies to every request with the given status and
body (the "simulated response" of the spec's testable properties). -/
def constT (status : Nat) (b : Body) : Request → Except Err Response :=
  fun _ => .ok ⟨status, b⟩

/-- JSON encoding of a `Detection`, for stating round-trip decoding. -/
def encodeDetection (d : Detection) : Json :=
  .obj [("confidence", .num d.confidence), ("language", .str d.language)]

/-- JSON encoding of a `Language`, for stating round-trip decoding. -/
def encodeLanguage (l : Language) : Json :=
  .obj [("code", .str l.code), ("name", .str l.name)]

/-- A path segment that `path.Clean` passes through unchanged: non-empty,
not `"."` or `".."`, and containing no slash. -/
def ValidSeg (s : List Char) : Prop :=
  s ≠ [] ∧ s ≠ ['.'] ∧ s ≠ ['.', '.'] ∧ '/' ∉ s

instance (s : List Char) : Decidable (ValidSeg s) := by
  unfold ValidSeg; infer_instance

/-! ## Lemmas about `path.Clean` / `path.Join` -/

theorem splitSl_ne_nil (s : List Char) : splitSl s ≠ [] := by
  cases s with
  | nil => simp [splitSl]
  | cons c rest =>
    simp only [splitSl]
    by_cases h : c = '/'
    · simp [h]
    · simp only [if_neg h]
      cases hs : splitSl rest <;> simp

theorem splitSl_slash (rest : List Char) : splitSl ('/' :: rest) = [] :: splitSl rest := by
  simp [splitSl]

theorem splitSl_cons_ne (c : Char) (rest : List Char) (h : c ≠ '/') :
    splitSl (c :: rest)
      = match splitSl rest with
        | [] => [[c]]
        | s :: ss => (c :: s) :: ss := by
  simp [splitSl, if_neg h]

theorem cons_replicate_swap {α : Type} (a : α) (n : Nat) (l : List α) :
    a :: (List.replicate n a ++ l) = List.replicate n a ++ a :: l := by
  induction n with
  | zero => rfl
  | succ n ih => simp only [List.replicate_succ, List.cons_append, ih]

theorem splitSl_append_slash (a b : List Char) :
    splitSl (a ++ '/' :: b) = splitSl a ++ splitSl b := by
  induction a with
  | nil => simp [splitSl]
  | cons c a' ih =>
    by_cases h : c = '/'
    · subst h
      rw [List.cons_append, splitSl_slash, splitSl_slash, ih, List.cons_append]
    · rcases hsa : splitSl a' with _ | ⟨s, ss⟩
      · exact absurd hsa (splitSl_ne_nil a')
      · rw [List.cons_append, splitSl_cons_ne c _ h, ih, hsa,
          splitSl_cons_ne c a' h, hsa, List.cons_append]
        rfl

theorem splitSl_replicate (n : Nat) (y : List Char) :
    splitSl (List.replicate n '/' ++ y) = List.replicate n ([] : List Char) ++ splitSl y := by
  induction n with
  | zero => simp
  | succ n ih =>
    simp only [List.replicate_succ, List.cons_append, splitSl_slash, ih]

theorem splitSl_no_slash (x : List Char) (h : '/' ∉ x) : splitSl x = [x] := by
  induction x with
  | nil => simp [splitSl]
  | cons c rest ih =>
    have hc : c ≠ '/' := fun hc => h (hc ▸ List.mem_cons_self c rest)
    have hr : '/' ∉ rest := fun hr => h (List.mem_cons_of_mem c hr)
    rw [splitSl_cons_ne c rest hc, ih hr]

theorem splitSl_interSl (segs : List (List Char)) (h : ∀ s ∈ segs, '/' ∉ s)
    (hne : segs ≠ []) : splitSl (interSl segs) = segs := by
  induction segs with
  | nil => exact absurd rfl hne
  | cons x tl ih =>
    cases tl with
    | nil => simpa [interSl] using splitSl_no_slash x (h x (List.mem_cons_self x []))
    | cons y tl' =>
      have hx : '/' ∉ x := h x (List.mem_cons_self x _)
      have htl : ∀ s ∈ y :: tl', '/' ∉ s := fun s hs => h s (List.mem_cons_of_mem x hs)
      calc splitSl (interSl (x :: y :: tl'))
          = splitSl (x ++ '/' :: interSl (y :: tl')) := by simp [interSl]
        _ = splitSl x ++ splitSl (interSl (y :: tl')) := splitSl_append_slash _ _
        _ = [x] ++ (y :: tl') := by rw [splitSl_no_slash x hx, ih htl (by simp)]
        _ = x :: y :: tl' := rfl

theorem cleanStep_nil (r : Bool) (st : List (List Char)) : cleanStep r st [] = st := by
  simp [cleanStep]

theorem foldl_cleanStep_replicate (r : Bool) (n : Nat) (rest : List (List Char))
    (st : List (List Char)) :
    (List.replicate n ([] : List Char) ++ rest).foldl (cleanStep r) st
      = rest.foldl (cleanStep r) st := by
  induction n generalizing st with
  | zero => simp
  | succ n ih => simp only [List.replicate_succ, List.cons_append, List.foldl_cons,
      cleanStep_nil, ih]

theorem foldl_cleanStep_replicate_nil (r : Bool) (n : Nat) (st : List (List Char)) :
    (List.replicate n ([] : List Char)).foldl (cleanStep r) st = st := by
  simpa using foldl_cleanStep_replicate r n [] st

theorem cleanStep_valid (r : Bool) (st : List (List Char)) (s : List Char)
    (h : ValidSeg s) : cleanStep r st s = s :: st := by
  obtain ⟨h1, h2, h3, _⟩ := h
  simp [cleanStep, h1, h2, h3]

theorem foldl_cleanStep_valid (r : Bool) (segs : List (List Char))
    (h : ∀ s ∈ segs, ValidSeg s) (st : List (List Char)) :
    segs.foldl (cleanStep r) st = segs.reverse ++ st := by
  induction segs generalizing st with
  | nil => simp
  | cons s tl ih =>
    have hs : ValidSeg s := h s (List.mem_cons_self s tl)
    have htl : ∀ x ∈ tl, ValidSeg x := fun x hx => h x (List.mem_cons_of_mem s hx)
    simp only [List.foldl_cons, cleanStep_valid r st s hs, ih htl,
      List.reverse_cons, List.append_assoc, List.cons_append, List.nil_append]

theorem validSeg_no_slash (segs : List (List Char)) (h : ∀ s ∈ segs, ValidSeg s) :
    ∀ s ∈ segs, '/' ∉ s := fun s hs => (h s hs).2.2.2

theorem cleanL_rooted_nil_base (es : List (List Char)) (k : Nat)
    (he : ∀ s ∈ es, ValidSeg s) (hes : es ≠ []) :
    cleanL ('/' :: (List.replicate k '/' ++ interSl es)) = '/' :: interSl es := by
  have hsplit : splitSl ('/' :: (List.replicate k '/' ++ interSl es))
      = [] :: (List.replicate k ([] : List Char) ++ es) := by
    rw [splitSl_slash, splitSl_replicate, splitSl_interSl es (validSeg_no_slash es he) hes]
  simp only [cleanL, isRooted, hsplit, List.foldl_cons, cleanStep_nil,
    foldl_cleanStep_replicate, foldl_cleanStep_valid true es he, List.append_nil,
    List.reverse_reverse, if_true]

theorem cleanL_rooted (bps es : List (List Char)) (k : Nat)
    (hb : ∀ s ∈ bps, ValidSeg s) (he : ∀ s ∈ es, ValidSeg s) (hes : es ≠ [])
    (hk : bps = [] ∨ 1 ≤ k) :
    cleanL ('/' :: (interSl bps ++ (List.replicate k '/' ++ interSl es)))
      = '/' :: interSl (bps ++ es) := by
  cases bps with
  | nil => simpa [interSl] using cleanL_rooted_nil_base es k he hes
  | cons b tl =>
    rcases hk with hk | hk
    · exact absurd hk (by simp)
    · obtain ⟨k', rfl⟩ : ∃ k', k = k' + 1 := ⟨k - 1, by omega⟩
      have hsplit : splitSl ('/' :: (interSl (b :: tl) ++ (List.replicate (k' + 1) '/' ++ interSl es)))
          = [] :: ((b :: tl) ++ (List.replicate k' ([] : List Char) ++ es)) := by
        rw [splitSl_slash, List.replicate_succ, List.cons_append, splitSl_append_slash,
          splitSl_interSl (b :: tl) (validSeg_no_slash _ hb) (by simp),
          splitSl_replicate, splitSl_interSl es (validSeg_no_slash es he) hes]
      simp only [cleanL, isRooted, hsplit, List.foldl_cons, cleanStep_nil, if_true]
      rw [List.foldl_append, List.foldl_append, foldl_cleanStep_valid true _ hb,
        foldl_cleanStep_replicate_nil, foldl_cleanStep_valid true es he]
      simp [List.reverse_append]

theorem replicate_slash_merge (t l : Nat) (E : List Char) :
    List.replicate t '/' ++ '/' :: (List.replicate l '/' ++ E)
      = List.replicate (t + 1 + l) '/' ++ E := by
  rw [show t + 1 + l = t + (1 + l) by omega, List.replicate_add, List.append_assoc,
    Nat.add_comm 1 l, List.replicate_succ, List.cons_append]

theorem pathJoin_single_sep (bps es : List (List Char)) (t l : Nat)
    (hb : ∀ s ∈ bps, ValidSeg s) (he : ∀ s ∈ es, ValidSeg s) (hes : es ≠ []) :
    pathJoin ('/' :: (interSl bps ++ List.replicate t '/'))
        (List.replicate l '/' ++ interSl es)
      = '/' :: interSl (bps ++ es) := by
  have hp : ('/' :: (interSl bps ++ List.replicate t '/')) ≠ [] := by simp
  rw [pathJoin, if_neg hp]
  have harr : ('/' :: (interSl bps ++ List.replicate t '/')) ++
        '/' :: (List.replicate l '/' ++ interSl es)
      = '/' :: (interSl bps ++ (List.replicate (t + 1 + l) '/' ++ interSl es)) := by
    simp only [List.cons_append, List.append_assoc, replicate_slash_merge]
  rw [harr]
  exact cleanL_rooted bps es (t + 1 + l) hb he hes (Or.inr (by omega))

theorem pathJoin_empty_base (es : List (List Char)) (l : Nat)
    (he : ∀ s ∈ es, ValidSeg s) (hes : es ≠ []) (hl : 1 ≤ l) :
    pathJoin [] (List.replicate l '/' ++ interSl es) = '/' :: interSl es := by
  obtain ⟨l', rfl⟩ : ∃ l', l = l' + 1 := ⟨l - 1, by omega⟩
  have hne : List.replicate (l' + 1) '/' ++ interSl es ≠ [] := by
    simp [List.replicate_succ]
  rw [pathJoin, if_pos rfl, if_neg hne, List.replicate_succ, List.cons_append]
  exact cleanL_rooted_nil_base es l' he hes

/-! ## Helper lemmas about the gateway and the operations -/

theorem buildRequest_ok (baseUrl m endpoint : String) (ps : Values) (u : URL)
    (h : parseURL baseUrl = some u) :
    buildRequest baseUrl m endpoint ps =
      .ok ⟨m, ⟨u.scheme, u.host, pathJoinStr u.path endpoint, u.rawQuery⟩,
           if m = "POST" then [("Content-Type", "application/x-www-form-urlencoded")] else [],
           valuesEncode ps⟩ := by
  unfold buildRequest newRequest
  rw [h]
  by_cases hm : m = "POST" <;> simp [hm, setHeader]

theorem Detect_200 (c : Client) (u : URL) (h : parseURL c.baseUrl = some u)
    (body : Body) (q : String) :
    Detect c (constT 200 body) q
      = .ret (decodeDetectionList body).1 (decodeDetectionList body).2 := by
  unfold Detect
  rw [buildRequest_ok c.baseUrl "POST" "/detect" (detectParams c q) u h]
  rfl

theorem GetLanguages_200 (c : Client) (u : URL) (h : parseURL c.baseUrl = some u)
    (body : Body) :
    GetLanguages c (constT 200 body)
      = .ret (decodeLanguageList body).1 (decodeLanguageList body).2 := by
  unfold GetLanguages
  rw [buildRequest_ok c.baseUrl "GET" "/languages" (languagesParams c) u h]
  rfl

theorem Translate_200 (c : Client) (u : URL) (h : parseURL c.baseUrl = some u)
    (body : Body) (q src tgt : String) :
    Translate c (constT 200 body) q src tgt
      = (match (decodeTranslateBody body).2 with
         | some e => .ret "" (some e)
         | none => .ret (decodeTranslateBody body).1.translatedText none) := by
  unfold Translate
  rw [buildRequest_ok c.baseUrl "POST" "/translate" (translateParams c q src tgt) u h]
  rfl

theorem decodeDetection_encode (d : Detection) :
    decodeDetection (encodeDetection d) = (d, none) := rfl

theorem decodeLanguage_encode (l : Language) :
    decodeLanguage (encodeLanguage l) = (l, none) := rfl

theorem decodeDetectionList_encode (ds : List Detection) :
    decodeDetectionList (.json (.arr (ds.map encodeDetection))) = (ds, none) := by
  have h2 : (ds.map encodeDetection).foldl
      (fun acc j => acc <|> (decodeDetection j).2) (none : Option Err) = none := by
    induction ds with
    | nil => rfl
    | cons d tl ih => simpa [decodeDetection_encode] using ih
  have h1 : (ds.map encodeDetection).map (fun j => (decodeDetection j).1) = ds := by
    rw [List.map_map]
    simp [Function.comp_def, decodeDetection_encode]
  show ((ds.map encodeDetection).map (fun j => (decodeDetection j).1),
    (ds.map encodeDetection).foldl (fun acc j => acc <|> (decodeDetection j).2) none)
      = (ds, none)
  rw [h1, h2]

theorem decodeLanguageList_encode (ls : List Language) :
    decodeLanguageList (.json (.arr (ls.map encodeLanguage))) = (ls, none) := by
  have h2 : (ls.map encodeLanguage).foldl
      (fun acc j => acc <|> (decodeLanguage j).2) (none : Option Err) = none := by
    induction ls with
    | nil => rfl
    | cons l tl ih => simpa [decodeLanguage_encode] using ih
  have h1 : (ls.map encodeLanguage).map (fun j => (decodeLanguage j).1) = ls := by
    rw [List.map_map]
    simp [Function.comp_def, decodeLanguage_encode]
  show ((ls.map encodeLanguage).map (fun j => (decodeLanguage j).1),
    (ls.map encodeLanguage).foldl (fun acc j => acc <|> (decodeLanguage j).2) none)
      = (ls, none)
  rw [h1, h2]

/-! ## Claim theorems -/

/-- C1: the claim says every failure at every stage is returned to the
caller immediately; in particular a base URL on which `buildRequest` fails
should make `GetLanguages` return that error without dispatching. The
token variant (`src/unnamed/part_000`) does so, but the no-token variant
(`src/libretranslate.go` lines 82-88) ignores the error from
`buildRequest` and hands the nil request to `c.client.Do`, which
dereferences it and panics: evaluated here at the failing base URL `"\n"`
(a control character, on which `url.Parse` fails), for every transport. -/
theorem c1_getLanguagesNT_ignores_buildRequest_error :
    (∀ transport, GetLanguagesNT ⟨"\n"⟩ transport = GoResult.crash) ∧
    (∀ transport, GetLanguages ⟨"\n", "tok"⟩ transport
        = .ret [] (some (.urlError "URL parsing error"))) :=
  ⟨fun _ => rfl, fun _ => rfl⟩

/-- C2: `checkForResponseErrors` returns the body exactly when the status
is 200; a non-200 response whose body decodes as the `{error: string}`
payload fails with the numeric status and the decoded message; a non-200
response whose body does not decode (including an empty body) fails with
the status and the fixed could-not-decode error. -/
theorem c2_checkForResponseErrors_characterization (res : Response) :
    (checkForResponseErrors res = .ok res.body ↔ res.status = 200) ∧
    (∀ m, res.status ≠ 200 → decodeApiError res.body = some m →
       checkForResponseErrors res = .error (.api res.status m)) ∧
    (res.status ≠ 200 → decodeApiError res.body = none →
       checkForResponseErrors res = .error (.apiUndecodable res.status)) := by
  refine ⟨?_, ?_, ?_⟩
  · by_cases h : res.status = 200
    · simp [checkForResponseErrors, h]
    · cases hd : decodeApiError res.body <;> simp [checkForResponseErrors, h, hd]
  · intro m hne hdec
    simp [checkForResponseErrors, hne, hdec]
  · intro hne hdec
    simp [checkForResponseErrors, hne, hdec]

/-- C2 witness: the spec's concrete instances — status 403 with body
`{"error":"invalid api key"}` yields the error with status 403 and message
"invalid api key"; status 500 with an empty (non-JSON) body yields the
undecodable error with status 500; status 200 returns the body. -/
theorem c2_checkForResponseErrors_instances :
    checkForResponseErrors ⟨403, .json (.obj [("error", .str "invalid api key")])⟩
        = .error (.api 403 "invalid api key") ∧
    checkForResponseErrors ⟨500, .raw ""⟩ = .error (.apiUndecodable 500) ∧
    checkForResponseErrors ⟨200, .raw "x"⟩ = .ok (.raw "x") :=
  ⟨(c2_checkForResponseErrors_characterization
      ⟨403, .json (.obj [("error", .str "invalid api key")])⟩).2.1
      "invalid api key" (by decide) rfl,
   (c2_checkForResponseErrors_characterization ⟨500, .raw ""⟩).2.2 (by decide) rfl,
   (c2_checkForResponseErrors_characterization ⟨200, .raw "x"⟩).1.mpr rfl⟩

/-- C3 counterexample: the claim says an operation never hands a partially
decoded value to the caller together with an error. But on a 200 response
with body `[{"code":"en","name":"English"},5]` the token variant's
`GetLanguages` ends in `return result, err`: `encoding/json` decodes the
first element, records an `UnmarshalTypeError` for the second and
continues, and the operation returns the partially decoded two-element
slice TOGETHER with the error — a non-empty value alongside a `some`
error, falsifying the claim at this input. -/
theorem c3_partial_result_returned_with_error :
    GetLanguages (NewClient "k")
        (constT 200 (.json (.arr
          [.obj [("code", .str "en"), ("name", .str "English")], .num 5])))
      = .ret [⟨"en", "English"⟩, ⟨"", ""⟩]
          (some (.jsonType "cannot unmarshal into Language")) ∧
    ([⟨"en", "English"⟩, ⟨"", ""⟩] : List Language) ≠ [] :=
  ⟨rfl, by decide⟩

/-- C3 amended: every operation reports at most one error; on a 200
response it succeeds with the fully decoded value and no error exactly
when decoding succeeds, but when decoding the 200 body fails, `Detect` and
`GetLanguages` return the decoder's (possibly partially decoded) slice
together with that single error, while `Translate` returns the empty
string with it. -/
theorem c3_amended_error_reporting (tok q src tgt : String) (body : Body) (e : Err) :
    ((decodeLanguageList body).2 = some e →
       GetLanguages (NewClient tok) (constT 200 body)
         = .ret (decodeLanguageList body).1 (some e)) ∧
    ((decodeDetectionList body).2 = some e →
       Detect (NewClient tok) (constT 200 body) q
         = .ret (decodeDetectionList body).1 (some e)) ∧
    ((decodeTranslateBody body).2 = some e →
       Translate (NewClient tok) (constT 200 body) q src tgt = .ret "" (some e)) ∧
    ((decodeTranslateBody body).2 = none →
       Translate (NewClient tok) (constT 200 body) q src tgt
         = .ret (decodeTranslateBody body).1.translatedText none) := by
  refine ⟨fun h => ?_, fun h => ?_, fun h => ?_, fun h => ?_⟩
  · rw [GetLanguages_200 (NewClient tok) ⟨"https", "libretranslate.com", "", ""⟩ rfl body, h]
  · rw [Detect_200 (NewClient tok) ⟨"https", "libretranslate.com", "", ""⟩ rfl body q, h]
  · rw [Translate_200 (NewClient tok) ⟨"https", "libretranslate.com", "", ""⟩ rfl body q src tgt, h]
  · rw [Translate_200 (NewClient tok) ⟨"https", "libretranslate.com", "", ""⟩ rfl body q src tgt, h]

/-- C3 amended witness: a non-JSON 200 body makes `GetLanguages` fail with
the single decode error (and the empty slice the decoder left), and a
well-formed translate body makes `Translate` succeed with no error. -/
theorem c3_amended_error_reporting_instances :
    GetLanguages (NewClient "k") (constT 200 (.raw "oops"))
      = .ret [] (some (.jsonMalformed "invalid JSON")) ∧
    Translate (NewClient "k")
        (constT 200 (.json (.obj [("translatedText", .str "Hi")]))) "a" "b" "c"
      = .ret "Hi" none :=
  ⟨(c3_amended_error_reporting "k" "a" "b" "c" (.raw "oops")
      (.jsonMalformed "invalid JSON")).1 rfl,
   (c3_amended_error_reporting "k" "a" "b" "c"
      (.json (.obj [("translatedText", .str "Hi")])) (.jsonMalformed "x")).2.2.2 rfl⟩

/-- C4: for every valid base URL (parsed with a rooted path made of valid
segments followed by any number of trailing slashes — or an empty path
with the endpoint carrying a leading slash) and every endpoint made of any
number of leading slashes followed by valid segments, the request URL
built by `buildRequest` joins the endpoint onto the base path with exactly
one `/` between base path and endpoint. -/
theorem c4_buildRequest_single_separator
    (baseUrl m : String) (ps : Values) (u : URL) (bps es : List (List Char))
    (t l : Nat) (req : Request)
    (hparse : parseURL baseUrl = some u)
    (hb : ∀ s ∈ bps, ValidSeg s) (he : ∀ s ∈ es, ValidSeg s) (hes : es ≠ [])
    (hpath : u.path = String.mk ('/' :: (interSl bps ++ List.replicate t '/')) ∨
      (bps = [] ∧ u.path = "" ∧ 1 ≤ l))
    (hok : buildRequest baseUrl m (String.mk (List.replicate l '/' ++ interSl es)) ps
      = .ok req) :
    req.url.path = String.mk ('/' :: interSl (bps ++ es)) := by
  rw [buildRequest_ok baseUrl m _ ps u hparse] at hok
  injection hok with h
  subst h
  show pathJoinStr u.path (String.mk (List.replicate l '/' ++ interSl es))
      = String.mk ('/' :: interSl (bps ++ es))
  rcases hpath with hpath | ⟨hbps, hpath, hl⟩
  · rw [hpath]
    show String.mk (pathJoin ('/' :: (interSl bps ++ List.replicate t '/'))
        (List.replicate l '/' ++ interSl es)) = _
    rw [pathJoin_single_sep bps es t l hb he hes]
  · subst hbps
    rw [hpath]
    show String.mk (pathJoin [] (List.replicate l '/' ++ interSl es)) = _
    rw [pathJoin_empty_base es l he hes hl]
    simp

/-- C4 witness: base URL `https://h/api` and endpoint `/langs` build a
request whose path is `/api/langs` — one separator at the junction. -/
theorem c4_buildRequest_single_separator_instance :
    buildRequest "https://h/api" "GET"
        (String.mk (List.replicate 1 '/' ++ interSl [['l', 'a', 'n', 'g', 's']])) []
      = .ok ⟨"GET", ⟨"https", "h", "/api/langs", ""⟩, [], ""⟩ ∧
    String.mk (List.replicate 1 '/' ++ interSl [['l', 'a', 'n', 'g', 's']]) = "/langs" ∧
    (⟨"GET", ⟨"https", "h", "/api/langs", ""⟩, [], ""⟩ : Request).url.path
      = String.mk ('/' :: interSl ([['a', 'p', 'i']] ++ [['l', 'a', 'n', 'g', 's']])) :=
  ⟨rfl, by decide,
   c4_buildRequest_single_separator "https://h/api" "GET" [] ⟨"https", "h", "/api", ""⟩
     [['a', 'p', 'i']] [['l', 'a', 'n', 'g', 's']] 0 1 _ rfl
     (by decide) (by decide) (by decide) (Or.inl (by decide)) rfl⟩

/-- C5: every successfully built POST request carries the
`Content-Type: application/x-www-form-urlencoded` header; every
successfully built GET request carries no `Content-Type` header at all,
even when parameters are present. -/
theorem c5_contentType_post_only (baseUrl endpoint : String) (ps : Values) (req : Request) :
    (buildRequest baseUrl "POST" endpoint ps = .ok req →
       ("Content-Type", "application/x-www-form-urlencoded") ∈ req.headers) ∧
    (buildRequest baseUrl "GET" endpoint ps = .ok req →
       ∀ v, ("Content-Type", v) ∉ req.headers) := by
  constructor
  · intro hok
    cases hp : parseURL baseUrl with
    | none =>
      unfold buildRequest at hok
      rw [hp] at hok
      simp at hok
    | some u =>
      rw [buildRequest_ok baseUrl "POST" endpoint ps u hp] at hok
      injection hok with h
      subst h
      simp
  · intro hok v
    cases hp : parseURL baseUrl with
    | none =>
      unfold buildRequest at hok
      rw [hp] at hok
      simp at hok
    | some u =>
      rw [buildRequest_ok baseUrl "GET" endpoint ps u hp] at hok
      injection hok with h
      subst h
      simp

/-- C5 witness: the concrete POST `/detect` request carries the header,
the concrete GET `/languages` request has no `Content-Type`. -/
theorem c5_contentType_post_only_instance :
    ("Content-Type", "application/x-www-form-urlencoded") ∈
      (⟨"POST", ⟨"https", "libretranslate.com", "/detect", ""⟩,
        [("Content-Type", "application/x-www-form-urlencoded")], ""⟩ : Request).headers ∧
    (∀ v, ("Content-Type", v) ∉
      (⟨"GET", ⟨"https", "libretranslate.com", "/languages", ""⟩, [], ""⟩ : Request).headers) :=
  ⟨(c5_contentType_post_only DefaultBaseURL "/detect" [] _).1 rfl,
   (c5_contentType_post_only DefaultBaseURL "/languages" [] _).2 rfl⟩

/-- C6: `Translate` sends the parameters `q`, `source` and `target` (plus
`api_key`), and on a 200 response with body
`{"translatedText":"Bonjour"}` returns exactly the string "Bonjour",
discarding every other field of the decoded result (here shown with a
`detectedLanguage` field also present and discarded). -/
theorem c6_translate_returns_translatedText (tok q src tgt : String) :
    translateParams (NewClient tok) q src tgt
        = [("q", q), ("source", src), ("target", tgt), ("api_key", tok)] ∧
    Translate (NewClient tok)
        (constT 200 (.json (.obj [("translatedText", .str "Bonjour")]))) q src tgt
      = .ret "Bonjour" none ∧
    Translate (NewClient tok)
        (constT 200 (.json (.obj
          [("detectedLanguage", .obj [("confidence", .num (9/10)), ("language", .str "en")]),
           ("translatedText", .str "Bonjour")]))) q src tgt
      = .ret "Bonjour" none :=
  ⟨rfl, rfl, rfl⟩

/-- C7: on a 200 response whose body is a JSON array of the operation's
element shape, `Detect` and `GetLanguages` return all elements with fields
intact and in the service's order (stated as a round trip: the JSON
encoding of any list of elements decodes back to exactly that list). The
spec's concrete instances are the singleton
`[{"confidence":0.9,"language":"en"}]` and the two-language list. -/
theorem c7_detect_getLanguages_order_preserved (tok q : String)
    (ds : List Detection) (ls : List Language) :
    Detect (NewClient tok) (constT 200 (.json (.arr (ds.map encodeDetection)))) q
      = .ret ds none ∧
    GetLanguages (NewClient tok) (constT 200 (.json (.arr (ls.map encodeLanguage))))
      = .ret ls none := by
  constructor
  · rw [Detect_200 (NewClient tok) ⟨"https", "libretranslate.com", "", ""⟩ rfl _ q,
      decodeDetectionList_encode]
  · rw [GetLanguages_200 (NewClient tok) ⟨"https", "libretranslate.com", "", ""⟩ rfl _,
      decodeLanguageList_encode]

/-- C8: every operation of the token client includes the `api_key`
parameter (with the client's token) in its outgoing parameters, and no
operation of the no-token client includes an `api_key` parameter. -/
theorem c8_api_key_token_variant_only (c : Client) (q src tgt : String) :
    (("api_key", c.token) ∈ detectParams c q ∧
     ("api_key", c.token) ∈ languagesParams c ∧
     ("api_key", c.token) ∈ translateParams c q src tgt) ∧
    ((∀ v, ("api_key", v) ∉ detectParamsNT q) ∧
     (∀ v, ("api_key", v) ∉ languagesParamsNT) ∧
     (∀ v, ("api_key", v) ∉ translateParamsNT q src tgt)) := by
  have h1 : detectParams c q = [("q", q), ("api_key", c.token)] := rfl
  have h3 : translateParams c q src tgt
      = [("q", q), ("source", src), ("target", tgt), ("api_key", c.token)] := rfl
  have h4 : detectParamsNT q = [("q", q)] := rfl
  have h6 : translateParamsNT q src tgt = [("q", q), ("source", src), ("target", tgt)] := rfl
  refine ⟨⟨?_, ?_, ?_⟩, ?_, ?_, ?_⟩ <;>
    simp [h1, h3, h4, h6, languagesParams, languagesParamsNT, Values.set, Values.empty]

/-- C9: `buildRequest` places the form-encoded parameters in the request
body and never in the URL query string (the built request's query is
exactly the base URL's own query, untouched by the parameters); in
particular the token client's `GetLanguages` sends `api_key` in the body
of its GET request and its request URL carries no query parameters. -/
theorem c9_params_in_body_not_query :
    (∀ (baseUrl m endpoint : String) (ps : Values) (u : URL) (req : Request),
       parseURL baseUrl = some u → buildRequest baseUrl m endpoint ps = .ok req →
       req.body = valuesEncode ps ∧ req.url.rawQuery = u.rawQuery) ∧
    (∀ tok : String,
       buildRequest DefaultBaseURL "GET" "/languages" (languagesParams (NewClient tok))
         = .ok ⟨"GET", ⟨"https", "libretranslate.com", "/languages", ""⟩, [],
                valuesEncode [("api_key", tok)]⟩) := by
  constructor
  · intro baseUrl m endpoint ps u req hp hok
    rw [buildRequest_ok baseUrl m endpoint ps u hp] at hok
    injection hok with h
    subst h
    exact ⟨rfl, rfl⟩
  · intro tok
    exact buildRequest_ok DefaultBaseURL "GET" "/languages" (languagesParams (NewClient tok))
      ⟨"https", "libretranslate.com", "", ""⟩ rfl

/-- C9 witness: a base URL with its own query `k=v` builds a POST request
whose body is the encoded parameters and whose query is still exactly
`k=v` — the parameters never reach the query string. -/
theorem c9_params_in_body_not_query_instance :
    (⟨"POST", ⟨"https", "x.y", "/detect", "k=v"⟩,
      [("Content-Type", "application/x-www-form-urlencoded")], "q=hi"⟩ : Request).body
        = valuesEncode [("q", "hi")] ∧
    (⟨"POST", ⟨"https", "x.y", "/detect", "k=v"⟩,
      [("Content-Type", "application/x-www-form-urlencoded")], "q=hi"⟩ : Request).url.rawQuery
        = (⟨"https", "x.y", "", "k=v"⟩ : URL).rawQuery :=
  c9_params_in_body_not_query.1 "https://x.y?k=v" "POST" "/detect" [("q", "hi")]
    ⟨"https", "x.y", "", "k=v"⟩ _ rfl rfl

/-- C10: constructing the token client with the empty token still sends
`api_key` (with an empty value) in every operation's parameters, rather
than omitting it: `GetLanguages`'s encoded body is literally `api_key=`. -/
theorem c10_empty_token_still_sends_api_key (q src tgt : String) :
    ("api_key", "") ∈ detectParams (NewClient "") q ∧
    ("api_key", "") ∈ languagesParams (NewClient "") ∧
    ("api_key", "") ∈ translateParams (NewClient "") q src tgt ∧
    valuesEncode (languagesParams (NewClient "")) = "api_key=" := by
  have h1 : detectParams (NewClient "") q = [("q", q), ("api_key", "")] := rfl
  have h2 : languagesParams (NewClient "") = [("api_key", "")] := rfl
  have h3 : translateParams (NewClient "") q src tgt
      = [("q", q), ("source", src), ("target", tgt), ("api_key", "")] := rfl
  refine ⟨?_, ?_, ?_, rfl⟩ <;> simp [h1, h2, h3]

end Libretranslate
